import Mathlib

/-!
# Verification of the CRUD-lab specification against its source

This file gives a shallow embedding, in Lean 4, of the request handlers of
the `docker-fullstack-lab` repository that the specification's testable
properties talk about, and proves (or refutes) each property against the
embedded code.

Embedded components:

* `react-node/backend/src/controllers/todo.controller.js` — the Express +
  PostgreSQL todo controller (`listTodos`, `createTodo`, `getTodo`,
  `updateTodo`, `deleteTodo`).  The database table is modelled as a list of
  rows plus the next value of the `id` sequence; `NOW()` is passed in as an
  explicit timestamp argument; JavaScript's `String.prototype.trim` is
  modelled character-for-character.
* `express-mongo/src/controllers/product.controller.js` — the Mongoose
  product controller (`listProducts`, `deleteProduct`), with the collection
  modelled as a list of documents.
* `express-mongo/src/routes/health.routes.js` — the health endpoint, a pure
  function of `mongoose.connection.readyState`.
* `php-mysql/src/Router.php` — the hand-rolled regex router: `addRoute`'s
  translation of `{name}` placeholders into `(?P<name>[^/]+)` capture groups
  is embedded as a token list, and PCRE's greedy, backtracking match of the
  anchored pattern is embedded as an executable matcher.
-/

/-! ## JavaScript string trimming

`title.trim()` in the controller removes leading and trailing whitespace.
We model the character class with the common ASCII whitespace characters and
the trim itself as `dropWhile` from both ends. -/

def isJsWhitespace (c : Char) : Bool :=
  c == ' ' || c == '\t' || c == '\n' || c == '\r' || c == '\x0b' || c == '\x0c'

/-- Remove leading whitespace, then trailing whitespace (via `reverse`). -/
def trimChars (cs : List Char) : List Char :=
  (((cs.dropWhile isJsWhitespace).reverse.dropWhile isJsWhitespace)).reverse

/-- JavaScript's `String.prototype.trim`. -/
def jsTrim (s : String) : String :=
  String.mk (trimChars s.data)

/-! ## The react-node todo service

`todo.controller.js` works over the PostgreSQL table

```
todos(id SERIAL PRIMARY KEY, title TEXT, completed BOOL, created_at, updated_at)
```

modelled as a list of `Todo` rows together with the next value of the `id`
sequence.  Responses carry the HTTP status and either a row, an error body
`{error}`, or a message body `{message}`. -/

structure Todo where
  id : Nat
  title : String
  completed : Bool
  created_at : Nat
  updated_at : Nat
deriving Repr, DecidableEq

structure TodoStore where
  rows : List Todo
  nextId : Nat
deriving Repr, DecidableEq

inductive TodoResp where
  | record (status : Nat) (row : Todo)
  | error (status : Nat) (error : String)
  | message (status : Nat) (message : String)
deriving Repr, DecidableEq

def TodoResp.status : TodoResp → Nat
  | .record st _ => st
  | .error st _ => st
  | .message st _ => st

/-- Relation used by `ORDER BY created_at DESC`: `a` comes before `b`
when `a`'s creation time is at least `b`'s. -/
def createdDesc (a b : Todo) : Prop := b.created_at ≤ a.created_at

instance : DecidableRel createdDesc := fun a b =>
  inferInstanceAs (Decidable (b.created_at ≤ a.created_at))

instance : IsTotal Todo createdDesc :=
  ⟨fun a b => (Nat.le_total b.created_at a.created_at)⟩

instance : IsTrans Todo createdDesc :=
  ⟨fun _ _ _ hab hbc => Nat.le_trans hbc hab⟩

structure TodoListResp where
  count : Nat
  todos : List Todo
deriving Repr, DecidableEq

/-- `listTodos` — `SELECT * FROM todos ORDER BY created_at DESC`, answered as
`{count: result.rowCount, todos: result.rows}`. -/
def listTodos (s : TodoStore) : TodoListResp :=
  let rows := List.insertionSort createdDesc s.rows
  { count := rows.length, todos := rows }

/-- `createTodo` — validates that `title` is present and non-blank, then
`INSERT INTO todos (title) VALUES ($1) RETURNING *` with `title.trim()`;
`completed` defaults to `false` and both timestamps to `NOW()`.
Returns the new store and the HTTP response (201 row, or 400). -/
def createTodo (s : TodoStore) (title : Option String) (now : Nat) :
    TodoStore × TodoResp :=
  match title with
  | none => (s, .error 400 "title is required and must be a non-empty string")
  | some t =>
    if jsTrim t = "" then
      (s, .error 400 "title is required and must be a non-empty string")
    else
      let row : Todo :=
        { id := s.nextId, title := jsTrim t, completed := false,
          created_at := now, updated_at := now }
      ({ rows := s.rows ++ [row], nextId := s.nextId + 1 }, .record 201 row)

/-- `getTodo` — `SELECT * FROM todos WHERE id = $1`; 404 when no row. -/
def getTodo (s : TodoStore) (id : Nat) : TodoResp :=
  match s.rows.find? (fun r => r.id == id) with
  | some r => .record 200 r
  | none => .error 404 ("Todo with id " ++ toString id ++ " not found")

/-- The row produced by `updateTodo`'s dynamically built `SET` clause:
`title = $i` (trimmed) when a title was supplied, `completed = $i` when a
completed flag was supplied, and always `updated_at = NOW()`. -/
def todoSet (title : Option String) (completed : Option Bool) (now : Nat)
    (r : Todo) : Todo :=
  { r with
    title := match title with | some t => jsTrim t | none => r.title
    completed := match completed with | some b => b | none => r.completed
    updated_at := now }

/-- The `UPDATE todos SET ... WHERE id = $k RETURNING *` step of
`updateTodo`: 404 when the row count is zero, otherwise the updated row. -/
def updateRun (s : TodoStore) (id : Nat) (title : Option String)
    (completed : Option Bool) (now : Nat) : TodoStore × TodoResp :=
  match s.rows.find? (fun r => r.id == id) with
  | none => (s, .error 404 ("Todo with id " ++ toString id ++ " not found"))
  | some r =>
    ({ s with rows := s.rows.map (fun x =>
        if x.id == id then todoSet title completed now x else x) },
     .record 200 (todoSet title completed now r))

/-- `updateTodo` — field-wise validation with early 400 returns exactly as in
the source, then the dynamic `UPDATE`.  (`completed` is typed `Bool` here, so
the source's `typeof completed !== 'boolean'` branch is unreachable in the
embedding.) -/
def updateTodo (s : TodoStore) (id : Nat) (title : Option String)
    (completed : Option Bool) (now : Nat) : TodoStore × TodoResp :=
  match title with
  | some t =>
    if jsTrim t = "" then (s, .error 400 "title must be a non-empty string")
    else updateRun s id title completed now
  | none =>
    match completed with
    | some _ => updateRun s id title completed now
    | none =>
      (s, .error 400 "Provide at least one field to update: title or completed")

/-- `deleteTodo` — `DELETE FROM todos WHERE id = $1`, then unconditionally
`res.json({message: 'Todo deleted'})` (idempotent by design: the comment in
the source says "return success even if the row did not exist"). -/
def deleteTodo (s : TodoStore) (id : Nat) : TodoStore × TodoResp :=
  ({ s with rows := s.rows.filter (fun r => r.id != id) },
   .message 200 "Todo deleted")

example : jsTrim "  a b  " = "a b" := by decide
example : jsTrim "" = "" := by decide
example :
    (createTodo ⟨[], 1⟩ (some " x ") 7).1 =
      ⟨[⟨1, "x", false, 7, 7⟩], 2⟩ := by decide
example : (deleteTodo ⟨[], 1⟩ 3).2 = .message 200 "Todo deleted" := by decide

/-! ## The express-mongo product service

`product.controller.js` over the Mongoose `Product` model.  A document
carries the schema fields (`name`, `description`, `price`, `category`,
`inStock`) and the `timestamps: true` pair; the `_id` is abstracted to a
natural number.  The collection is a plain list of documents. -/

structure Product where
  id : Nat
  name : String
  description : String
  price : Int
  category : String
  inStock : Bool
  createdAt : Nat
  updatedAt : Nat
deriving Repr, DecidableEq

structure ProductListResp where
  status : Nat
  count : Nat
  products : List Product
deriving Repr, DecidableEq

/-- `listProducts` — builds `filter = {}` and sets `filter.category` only when
`req.query.category` is truthy (in particular, `?category=` — the empty
string — is falsy and leaves the filter empty), then `Product.find(filter)`
and `{count: products.length, products}` with status 200. -/
def listProducts (category : Option String) (docs : List Product) :
    ProductListResp :=
  let rows :=
    match category with
    | some c => if c ≠ "" then docs.filter (fun p => p.category == c) else docs
    | none => docs
  { status := 200, count := rows.length, products := rows }

inductive ProductResp where
  | record (status : Nat) (doc : Product)
  | error (status : Nat) (error : String)
  | message (status : Nat) (message : String)
deriving Repr, DecidableEq

def ProductResp.status : ProductResp → Nat
  | .record st _ => st
  | .error st _ => st
  | .message st _ => st

/-- `deleteProduct` — `findByIdAndDelete`: when no document has the id the
result is `null` and the handler answers 404; otherwise the document is
removed and the handler answers 200 `{message: 'Product deleted'}`. -/
def deleteProduct (docs : List Product) (id : Nat) :
    List Product × ProductResp :=
  match docs.find? (fun p => p.id == id) with
  | none => (docs, .error 404 "Product not found")
  | some _ =>
    (docs.filter (fun p => p.id != id), .message 200 "Product deleted")

/-! ## The express-mongo health endpoint

`health.routes.js`: a pure function of `mongoose.connection.readyState`
(0 disconnected, 1 connected, 2 connecting, 3 disconnecting) and of the
current time, serialised into the `{status, database, timestamp}` body. -/

structure HealthBody where
  status : String
  database : String
  timestamp : String
deriving Repr, DecidableEq

structure HealthResp where
  status : Nat
  body : HealthBody
deriving Repr, DecidableEq

/-- `GET /health` — 500 with an error body unless `readyState === 1`,
otherwise 200 with an ok body. -/
def healthHandler (readyState : Nat) (ts : String) : HealthResp :=
  if readyState != 1 then
    { status := 500, body := { status := "error", database := "unavailable", timestamp := ts } }
  else
    { status := 200, body := { status := "ok", database := "ok", timestamp := ts } }

example : (healthHandler 1 "t").status = 200 := by decide
example : (healthHandler 2 "t").status = 500 := by decide

/-! ## The php-mysql hand-rolled router

`Router.php` stores, per route, the upper-cased method, the anchored regex
produced by replacing every `{word}` in the path with `(?P<word>[^/]+)`, and
a handler.  The regex is embedded as a token list — a literal character, or a
named parameter standing for `[^/]+` — and PCRE's greedy, backtracking match
of the anchored pattern is an executable matcher over the token list. -/

inductive RouteTok where
  | lit (c : Char)
  | param (name : String)
deriving Repr, DecidableEq

/-- PHP's `strtoupper` in the default C locale: upper-case the ASCII
letters `a`–`z`, leave every other byte unchanged. -/
def asciiUpperChar (c : Char) : Char :=
  if 'a' ≤ c && c ≤ 'z' then Char.ofNat (c.toNat - 32) else c

def strToUpper (s : String) : String :=
  String.mk (s.data.map asciiUpperChar)

/-- A character PHP's `\w` matches (the `{(\w+)}` placeholder scan). -/
def isWordChar (c : Char) : Bool :=
  c.isAlphanum || c == '_'

/-- Leftmost scan of `preg_replace('/\{(\w+)\}/', '(?P<$1>[^/]+)', $path)`.
The second argument is the scanner state: `none` outside a brace group,
`some acc` after an opening `{` with `acc` the word characters read so far.
A completed `{word}` group becomes a named parameter; everything that does
not complete a group is flushed back as literal characters. -/
def pathToksGo : List Char → Option (List Char) → List RouteTok
  | [], none => []
  | [], some acc => RouteTok.lit '{' :: acc.map RouteTok.lit
  | c :: cs, none =>
    if c == '{' then pathToksGo cs (some [])
    else RouteTok.lit c :: pathToksGo cs none
  | c :: cs, some acc =>
    if c == '}' then
      if acc.isEmpty then
        RouteTok.lit '{' :: RouteTok.lit '}' :: pathToksGo cs none
      else RouteTok.param (String.mk acc) :: pathToksGo cs none
    else if isWordChar c then pathToksGo cs (some (acc ++ [c]))
    else if c == '{' then
      (RouteTok.lit '{' :: acc.map RouteTok.lit) ++ pathToksGo cs (some [])
    else
      (RouteTok.lit '{' :: acc.map RouteTok.lit) ++
        (RouteTok.lit c :: pathToksGo cs none)

/-- The compiled route pattern: `{word}` groups as named parameters, all
other characters as literals. -/
def pathToks (path : List Char) : List RouteTok :=
  pathToksGo path none

/-- Greedy anchored match of a compiled pattern against the remaining
characters of the URI.  A named parameter stands for `(?P<name>[^/]+)`: it
captures a non-empty run of non-`/` characters, longest candidate first with
backtracking, as PCRE does; captures are returned in pattern order. -/
def matchToks : List RouteTok → List Char → Option (List (String × String))
  | [], [] => some []
  | [], _ :: _ => none
  | RouteTok.lit _ :: _, [] => none
  | RouteTok.lit c :: rest, d :: ds =>
    if c == d then matchToks rest ds else none
  | RouteTok.param n :: rest, cs =>
    (((List.range (cs.takeWhile (fun c => c != '/')).length).reverse).map
        (fun j => j + 1)).findSome?
      (fun k => (matchToks rest (cs.drop k)).map
        (fun ps => (n, String.mk (cs.take k)) :: ps))

structure Route where
  method : String
  toks : List RouteTok
  handler : String
deriving Repr, DecidableEq

/-- `Router::addRoute` — upper-case the method and compile the path. -/
def addRoute (method path handler : String) : Route :=
  { method := strToUpper method, toks := pathToks path.data, handler := handler }

example : pathToks "/students/{id}".data =
    ([.lit '/', .lit 's', .lit 't', .lit 'u', .lit 'd', .lit 'e', .lit 'n',
      .lit 't', .lit 's', .lit '/', .param "id"] : List RouteTok) := by decide

inductive DispatchResult where
  | invoked (handler : String) (params : List (String × String))
  | notFound (status : Nat) (error : String) (path : String)
deriving Repr, DecidableEq

/-- The `foreach` loop of `Router::dispatch`: skip routes whose method
differs, invoke the handler of the first route whose pattern matches the
whole URI, else fall through to the 404 response. -/
def dispatchGo (routes : List Route) (method uri : String) : DispatchResult :=
  match routes with
  | [] => .notFound 404 "Route not found" uri
  | r :: rs =>
    if r.method == method then
      match matchToks r.toks uri.data with
      | some ps => .invoked r.handler ps
      | none => dispatchGo rs method uri
    else dispatchGo rs method uri

/-- `Router::dispatch` — apply the optional `_method` override for `POST`
requests, upper-case the request method, and run the route loop. -/
def dispatch (routes : List Route) (method : String)
    (postMethodOverride : Option String) (uri : String) : DispatchResult :=
  let m :=
    if method == "POST" then
      match postMethodOverride with
      | some o => strToUpper o
      | none => method
    else method
  dispatchGo routes (strToUpper m) uri

example :
    dispatch [addRoute "get" "/students/{id}" "show"] "GET" none "/students/7" =
      .invoked "show" [("id", "7")] := by decide
example :
    dispatch [addRoute "get" "/students/{id}" "show"] "POST" none "/students/7" =
      .notFound 404 "Route not found" "/students/7" := by decide
example :
    dispatch [addRoute "get" "/students" "index"] "GET" none "/students/7" =
      .notFound 404 "Route not found" "/students/7" := by decide

/-! ## Library lemmas about `dropWhile`, trimming, and `find?` -/

theorem head_dropWhile_not {α : Type} (p : α → Bool) (l : List α) {x : α}
    (hx : (l.dropWhile p).head? = some x) : p x = false := by
  induction l with
  | nil => simp at hx
  | cons a t ih =>
    by_cases hpa : p a = true
    · rw [List.dropWhile_cons_of_pos hpa] at hx
      exact ih hx
    · rw [List.dropWhile_cons_of_neg (by simpa using hpa)] at hx
      have hax : a = x := by simpa using hx
      subst hax
      simpa using hpa

theorem dropWhile_eq_self_of_head {α : Type} {p : α → Bool} {l : List α}
    (h : ∀ x, l.head? = some x → p x = false) : l.dropWhile p = l := by
  cases l with
  | nil => rfl
  | cons a t =>
    have ha := h a (by simp)
    simp [List.dropWhile_cons, ha]

theorem dropWhile_self_idem {α : Type} (p : α → Bool) (l : List α) :
    (l.dropWhile p).dropWhile p = l.dropWhile p :=
  dropWhile_eq_self_of_head (fun _ hx => head_dropWhile_not p l hx)

theorem getLast?_dropWhile {α : Type} (p : α → Bool) (l : List α)
    (h : l.dropWhile p ≠ []) : (l.dropWhile p).getLast? = l.getLast? := by
  obtain ⟨t, ht⟩ := List.dropWhile_suffix (l := l) p
  conv_rhs => rw [← ht]
  rw [List.getLast?_append]
  cases hu : (l.dropWhile p).getLast? with
  | some y => rfl
  | none => exact absurd (List.getLast?_eq_none_iff.mp hu) h

/-- Trimming is idempotent: a second `trim` of an already trimmed character
list changes nothing. -/
theorem trimChars_idem (cs : List Char) : trimChars (trimChars cs) = trimChars cs := by
  have hA : (trimChars cs).dropWhile isJsWhitespace = trimChars cs := by
    apply dropWhile_eq_self_of_head
    intro x hx
    unfold trimChars at hx
    rw [List.head?_reverse] at hx
    have hne :
        (cs.dropWhile isJsWhitespace).reverse.dropWhile isJsWhitespace ≠ [] := by
      intro hemp
      rw [hemp] at hx
      simp at hx
    rw [getLast?_dropWhile _ _ hne, List.getLast?_reverse] at hx
    exact head_dropWhile_not _ _ hx
  have hstep : trimChars (trimChars cs) =
      ((((trimChars cs).dropWhile isJsWhitespace).reverse).dropWhile
        isJsWhitespace).reverse := rfl
  rw [hstep, hA]
  have hrev : (trimChars cs).reverse =
      (cs.dropWhile isJsWhitespace).reverse.dropWhile isJsWhitespace := by
    unfold trimChars
    rw [List.reverse_reverse]
  rw [hrev, dropWhile_self_idem]
  rfl

/-- JavaScript's `trim` is idempotent. -/
theorem jsTrim_idem (s : String) : jsTrim (jsTrim s) = jsTrim s := by
  show String.mk (trimChars (String.mk (trimChars s.data)).data) = _
  show String.mk (trimChars (trimChars s.data)) = _
  rw [trimChars_idem]
  rfl

/-- `find?` by id over rows rewritten by an id-preserving function finds the
rewrite of what it found before. -/
theorem find?_map_preserving_id (l : List Todo) (id : Nat) (f : Todo → Todo)
    (hid : ∀ x, (f x).id = x.id) {r : Todo}
    (h : l.find? (fun x => x.id == id) = some r) :
    (l.map f).find? (fun x => x.id == id) = some (f r) := by
  rw [List.find?_map]
  have hp : ((fun x : Todo => x.id == id) ∘ f) = (fun x : Todo => x.id == id) := by
    funext x
    show ((f x).id == id) = (x.id == id)
    rw [hid x]
  rw [hp, h]
  rfl

/-- After removing every row with the given id, `find?` by that id fails. -/
theorem find?_filter_ne_id (l : List Todo) (id : Nat) :
    (l.filter (fun x => x.id != id)).find? (fun x => x.id == id) = none := by
  rw [List.find?_eq_none]
  intro x hx
  rw [List.mem_filter] at hx
  simpa using hx.2

/-- After removing every document with the given id, `find?` by that id
fails (product collection version). -/
theorem find?_filter_ne_id_product (l : List Product) (id : Nat) :
    (l.filter (fun x => x.id != id)).find? (fun x => x.id == id) = none := by
  rw [List.find?_eq_none]
  intro x hx
  rw [List.mem_filter] at hx
  simpa using hx.2

theorem find?_false {α : Type} (l : List α) :
    l.find? (fun _ => false) = none := by
  rw [List.find?_eq_none]
  intro x _
  simp

/-! ## The claims -/

/-- C1 (counterexample).  The claim says delete performs fetch-or-404, so
that a DELETE after a successful DELETE — or any DELETE of an absent id —
returns 404.  In `todo.controller.js` the DELETE handler is deliberately
idempotent: after deleting the only row with id 1, a second DELETE of id 1
still answers 200 `{message: 'Todo deleted'}`, not 404. -/
theorem deleteTodo_absent_returns_success :
    (deleteTodo (deleteTodo ⟨[⟨1, "a", false, 0, 0⟩], 2⟩ 1).1 1).2 =
      .message 200 "Todo deleted" ∧
    ((deleteTodo (deleteTodo ⟨[⟨1, "a", false, 0, 0⟩], 2⟩ 1).1 1).2).status ≠ 404 ∧
    (getTodo (deleteTodo ⟨[⟨1, "a", false, 0, 0⟩], 2⟩ 1).1 1).status = 404 := by
  decide

/-- C1 (amended).  After a DELETE of an id, a subsequent GET of that id
returns 404 and a subsequent PUT carrying a valid field returns 404; in the
express-mongo service DELETE is fetch-or-404, so deleting an absent id — in
particular deleting the same id twice — returns 404; in the react-node
service DELETE is idempotent and always returns 200 success. -/
theorem delete_then_gone (s : TodoStore) (id now : Nat)
    (ps : List Product) (pid : Nat) :
    (getTodo (deleteTodo s id).1 id).status = 404 ∧
    (∀ t, jsTrim t ≠ "" →
      ((updateTodo (deleteTodo s id).1 id (some t) none now).2).status = 404) ∧
    (∀ b : Bool,
      ((updateTodo (deleteTodo s id).1 id none (some b) now).2).status = 404) ∧
    (deleteTodo (deleteTodo s id).1 id).2 = .message 200 "Todo deleted" ∧
    (ps.find? (fun p => p.id == pid) = none →
      ((deleteProduct ps pid).2).status = 404) ∧
    ((deleteProduct (deleteProduct ps pid).1 pid).2).status = 404 := by
  refine ⟨?_, ?_, ?_, rfl, ?_, ?_⟩
  · simp [getTodo, deleteTodo, find?_false, TodoResp.status]
  · intro t ht
    simp [updateTodo, deleteTodo, updateRun, ht, find?_false,
      TodoResp.status]
  · intro b
    simp [updateTodo, deleteTodo, updateRun, find?_false,
      TodoResp.status]
  · intro h
    simp [deleteProduct, h, ProductResp.status]
  · cases hf : ps.find? (fun p => p.id == pid) with
    | none => simp [deleteProduct, hf, ProductResp.status]
    | some q =>
      simp [deleteProduct, hf, find?_false, ProductResp.status]

/-- C1 (witness for the amended theorem). -/
theorem delete_then_gone_witness :
    (getTodo (deleteTodo ⟨[⟨1, "a", false, 0, 0⟩], 2⟩ 1).1 1).status = 404 ∧
    ((updateTodo (deleteTodo ⟨[⟨1, "a", false, 0, 0⟩], 2⟩ 1).1 1
      (some "x") none 5).2).status = 404 ∧
    ((deleteProduct [] 1).2).status = 404 :=
  ⟨(delete_then_gone ⟨[⟨1, "a", false, 0, 0⟩], 2⟩ 1 5 [] 1).1,
   (delete_then_gone ⟨[⟨1, "a", false, 0, 0⟩], 2⟩ 1 5 [] 1).2.1 "x" (by decide),
   (delete_then_gone ⟨[⟨1, "a", false, 0, 0⟩], 2⟩ 1 5 [] 1).2.2.2.2.1 (by decide)⟩

/-- C2 (counterexample).  The claim says the one supplied field ends up equal
to the supplied value.  In `updateTodo` a supplied title is stored trimmed:
updating the stored record `⟨1, "a", false, 0, 0⟩` with body
`{title: " b "}` stores and returns title `"b"`, not the supplied `" b "`. -/
theorem updateTodo_trims_supplied_title :
    ((updateTodo ⟨[⟨1, "a", false, 0, 0⟩], 2⟩ 1 (some " b ") none 5).2 =
      .record 200 ⟨1, "b", false, 0, 5⟩) ∧
    ((updateTodo ⟨[⟨1, "a", false, 0, 0⟩], 2⟩ 1 (some " b ") none 5).1.rows =
      [⟨1, "b", false, 0, 5⟩]) ∧
    (" b " ≠ "b") := by decide

/-- C2 (amended).  A one-field update stores and returns the supplied value —
trimmed of surrounding whitespace when the field is the title string — leaves
every other data field of the record unchanged, and sets the updated
timestamp to the time of the update. -/
theorem updateTodo_single_field_frame (s : TodoStore) (id now : Nat)
    (r : Todo) (h : s.rows.find? (fun x => x.id == id) = some r) :
    (∀ t, jsTrim t ≠ "" →
      (updateTodo s id (some t) none now).2 =
        .record 200 { r with title := jsTrim t, updated_at := now } ∧
      (updateTodo s id (some t) none now).1.rows.find? (fun x => x.id == id) =
        some { r with title := jsTrim t, updated_at := now } ∧
      (updateTodo s id (some t) none now).1.nextId = s.nextId) ∧
    (∀ b : Bool,
      (updateTodo s id none (some b) now).2 =
        .record 200 { r with completed := b, updated_at := now } ∧
      (updateTodo s id none (some b) now).1.rows.find? (fun x => x.id == id) =
        some { r with completed := b, updated_at := now } ∧
      (updateTodo s id none (some b) now).1.nextId = s.nextId) := by
  have hr0 := List.find?_some h
  have hr : (r.id == id) = true := hr0
  constructor
  · intro t ht
    have hrun : updateTodo s id (some t) none now =
        updateRun s id (some t) none now := by
      simp [updateTodo, ht]
    have hfind := find?_map_preserving_id s.rows id
      (fun x => if x.id == id then todoSet (some t) none now x else x)
      (fun x => by by_cases hx : (x.id == id) = true <;> simp [hx, todoSet]) h
    simp only [hr, if_true] at hfind
    rw [hrun]
    unfold updateRun
    rw [h]
    exact ⟨rfl, hfind, rfl⟩
  · intro b
    have hfind := find?_map_preserving_id s.rows id
      (fun x => if x.id == id then todoSet none (some b) now x else x)
      (fun x => by by_cases hx : (x.id == id) = true <;> simp [hx, todoSet]) h
    simp only [hr, if_true] at hfind
    rw [show updateTodo s id none (some b) now =
      updateRun s id none (some b) now from rfl]
    unfold updateRun
    rw [h]
    exact ⟨rfl, hfind, rfl⟩

/-- C2 (witness for the amended theorem). -/
theorem updateTodo_single_field_frame_witness :
    (updateTodo ⟨[⟨1, "a", false, 0, 0⟩], 2⟩ 1 (some " b ") none 5).2 =
      .record 200 ⟨1, "b", false, 0, 5⟩ ∧
    (updateTodo ⟨[⟨1, "a", false, 0, 0⟩], 2⟩ 1 none (some true) 5).2 =
      .record 200 ⟨1, "a", true, 0, 5⟩ :=
  ⟨((updateTodo_single_field_frame ⟨[⟨1, "a", false, 0, 0⟩], 2⟩ 1 5
      ⟨1, "a", false, 0, 0⟩ (by decide)).1 " b " (by decide)).1,
   ((updateTodo_single_field_frame ⟨[⟨1, "a", false, 0, 0⟩], 2⟩ 1 5
      ⟨1, "a", false, 0, 0⟩ (by decide)).2 true).1⟩

/-- C3 (counterexample).  The claim says the fetched record equals the
payload field for field.  `createTodo` stores `title.trim()`: creating with
title `" a "` and fetching the returned id yields title `"a"`, which differs
from the supplied `" a "`. -/
theorem createTodo_trims_title :
    ((createTodo ⟨[], 1⟩ (some " a ") 3).2 = .record 201 ⟨1, "a", false, 3, 3⟩) ∧
    (getTodo (createTodo ⟨[], 1⟩ (some " a ") 3).1 1 =
      .record 200 ⟨1, "a", false, 3, 3⟩) ∧
    (" a " ≠ "a") := by decide

/-- C3 (amended).  Creating with a valid payload returns 201 with the new
record — its title equal to the payload title trimmed of surrounding
whitespace, hence equal to the payload title whenever that is already
trimmed — and a Get on the returned id yields that same record. -/
theorem create_then_get (s : TodoStore) (now : Nat) (t : String)
    (ht : jsTrim t ≠ "") (hfresh : ∀ r ∈ s.rows, r.id ≠ s.nextId) :
    (createTodo s (some t) now).2 =
      .record 201 ⟨s.nextId, jsTrim t, false, now, now⟩ ∧
    getTodo (createTodo s (some t) now).1 s.nextId =
      .record 200 ⟨s.nextId, jsTrim t, false, now, now⟩ := by
  have hcreate : createTodo s (some t) now =
      ({ rows := s.rows ++ [⟨s.nextId, jsTrim t, false, now, now⟩],
         nextId := s.nextId + 1 },
       .record 201 ⟨s.nextId, jsTrim t, false, now, now⟩) := by
    simp [createTodo, ht]
  rw [hcreate]
  refine ⟨rfl, ?_⟩
  unfold getTodo
  have hnone : s.rows.find? (fun r => r.id == s.nextId) = none := by
    rw [List.find?_eq_none]
    intro x hx
    simpa using hfresh x hx
  rw [List.find?_append, hnone]
  simp [List.find?]

/-- C3 (witness for the amended theorem). -/
theorem create_then_get_witness :
    getTodo (createTodo ⟨[], 1⟩ (some " a ") 3).1 1 =
      .record 200 ⟨1, "a", false, 3, 3⟩ :=
  (create_then_get ⟨[], 1⟩ 3 " a " (by decide) (by decide)).2

/-- C4.  A creation payload that omits the required `title` field is answered
with 400, the error body names `title` (the message begins with the field
name), and the store is unchanged — no record is inserted. -/
theorem createTodo_missing_required_field (s : TodoStore) (now : Nat) :
    createTodo s none now =
      (s, .error 400 "title is required and must be a non-empty string") ∧
    "title".data.isPrefixOf
      "title is required and must be a non-empty string".data = true :=
  ⟨rfl, by decide⟩

/-- C5.  The health endpoint answers 200 with body
`{status: "ok", database: "ok", timestamp}` exactly when the Mongoose
connection state is `connected` (readyState 1), answers 500 with an error
body `{status: "error", database: "unavailable", timestamp}` otherwise, and
no other outcome exists. -/
theorem healthHandler_outcomes (rs : Nat) (ts : String) :
    (rs = 1 → healthHandler rs ts =
      { status := 200,
        body := { status := "ok", database := "ok", timestamp := ts } }) ∧
    (rs ≠ 1 → healthHandler rs ts =
      { status := 500,
        body := { status := "error", database := "unavailable",
                  timestamp := ts } }) ∧
    ((healthHandler rs ts).status = 200 ∨ (healthHandler rs ts).status = 500) := by
  by_cases hcase : rs = 1
  · subst hcase
    exact ⟨fun _ => rfl, fun hne => absurd rfl hne, Or.inl rfl⟩
  · have hb : (rs != 1) = true := by simpa using hcase
    refine ⟨fun he => absurd he hcase, fun _ => by simp [healthHandler, hb], ?_⟩
    right
    simp [healthHandler, hb]

/-- C5 (witness). -/
theorem healthHandler_outcomes_witness :
    healthHandler 1 "t" =
      { status := 200, body := { status := "ok", database := "ok", timestamp := "t" } } ∧
    healthHandler 0 "t" =
      { status := 500, body := { status := "error", database := "unavailable",
                                 timestamp := "t" } } :=
  ⟨(healthHandler_outcomes 1 "t").1 rfl,
   (healthHandler_outcomes 0 "t").2.1 (by decide)⟩

/-- C6 (counterexample).  The claim quantifies over every value of the filter
parameter.  For the empty value (`?category=`), `listProducts` leaves the
Mongo filter empty — `req.query.category` is falsy — and returns every
document, yet no document has category `""`: the response is not "exactly
the records whose category equals the filter value". -/
theorem listProducts_empty_filter_value :
    (listProducts (some "") [⟨1, "Widget", "", 5, "other", true, 0, 0⟩]).products =
      [⟨1, "Widget", "", 5, "other", true, 0, 0⟩] ∧
    [⟨1, "Widget", "", 5, "other", true, 0, 0⟩].filter
      (fun p => p.category == "") = ([] : List Product) := by decide

/-- C6 (amended).  For every non-empty filter value the list endpoint returns
exactly the stored records whose category equals that value — every match
included, nothing else; with no filter parameter, or with the empty value
(which leaves the Mongo filter empty), it returns all records. -/
theorem listProducts_filter_exact (docs : List Product) :
    (∀ v, v ≠ "" →
      (listProducts (some v) docs).products =
        docs.filter (fun p => p.category == v) ∧
      ∀ p, p ∈ (listProducts (some v) docs).products ↔
        p ∈ docs ∧ p.category = v) ∧
    (listProducts none docs).products = docs ∧
    (listProducts (some "") docs).products = docs := by
  refine ⟨?_, rfl, by simp [listProducts]⟩
  intro v hv
  have hfil : (listProducts (some v) docs).products =
      docs.filter (fun p => p.category == v) := by
    simp [listProducts, hv]
  refine ⟨hfil, ?_⟩
  intro p
  rw [hfil, List.mem_filter]
  simp

/-- C6 (witness for the amended theorem). -/
theorem listProducts_filter_exact_witness :
    (listProducts (some "other")
      [⟨1, "Widget", "", 5, "other", true, 0, 0⟩]).products =
    [⟨1, "Widget", "", 5, "other", true, 0, 0⟩].filter
      (fun p => p.category == "other") :=
  ((listProducts_filter_exact [⟨1, "Widget", "", 5, "other", true, 0, 0⟩]).1
    "other" (by decide)).1

/-- C7.  The list endpoint returns the rows ordered by creation time
descending (`ORDER BY created_at DESC`): the returned list is sorted under
`createdDesc` and is a permutation of the stored rows. -/
theorem listTodos_sorted_created_desc (s : TodoStore) :
    List.Sorted createdDesc (listTodos s).todos ∧
    List.Perm (listTodos s).todos s.rows :=
  ⟨List.sorted_insertionSort createdDesc s.rows,
   List.perm_insertionSort createdDesc s.rows⟩

/-- Helper for C8: the route loop of `dispatch` invokes the handler of the
first route whose stored method equals the effective method and whose
pattern matches the whole URI, and answers the 404 body otherwise. -/
theorem dispatchGo_first_match (routes : List Route) (m uri : String) :
    dispatchGo routes m uri =
      match routes.find? (fun r => r.method == m &&
          (matchToks r.toks uri.data).isSome) with
      | some r =>
        DispatchResult.invoked r.handler ((matchToks r.toks uri.data).getD [])
      | none => DispatchResult.notFound 404 "Route not found" uri := by
  induction routes with
  | nil => rfl
  | cons r rs ih =>
    by_cases hm : (r.method == m) = true
    · cases hmt : matchToks r.toks uri.data with
      | some ps => simp [dispatchGo, hm, List.find?, hmt]
      | none => simp [dispatchGo, hm, List.find?, hmt, ih]
    · simp [dispatchGo, hm, List.find?, ih]

/-- C8.  For a request without a `_method` override field, `dispatch`
invokes the handler of the first registered route whose upper-cased method
equals the upper-cased request method and whose compiled pattern — each
`{name}` group matching one non-empty run of non-`/` characters — matches
the whole request URI, passing the named captures; when no route matches it
responds 404 with the `Route not found` error body. -/
theorem dispatch_first_match (routes : List Route) (method uri : String) :
    dispatch routes method none uri =
      match routes.find? (fun r => r.method == strToUpper method &&
          (matchToks r.toks uri.data).isSome) with
      | some r =>
        DispatchResult.invoked r.handler ((matchToks r.toks uri.data).getD [])
      | none => DispatchResult.notFound 404 "Route not found" uri := by
  have hm : dispatch routes method none uri =
      dispatchGo routes (strToUpper method) uri := by
    unfold dispatch
    by_cases hp : (method == "POST") = true <;> simp [hp]
  rw [hm, dispatchGo_first_match]

/-- C9.  Every enveloped list response reports a `count` equal to the length
of the returned record array, for every store state and filter. -/
theorem list_count_matches_length (s : TodoStore) (c : Option String)
    (docs : List Product) :
    (listTodos s).count = (listTodos s).todos.length ∧
    (listProducts c docs).count = (listProducts c docs).products.length :=
  ⟨rfl, rfl⟩

/-- The stores reachable from the initial empty table through the public
endpoints of the todo service. -/
inductive ReachableTodo : TodoStore → Prop
  | init : ReachableTodo ⟨[], 1⟩
  | create (s : TodoStore) (title : Option String) (now : Nat) :
      ReachableTodo s → ReachableTodo (createTodo s title now).1
  | update (s : TodoStore) (id : Nat) (title : Option String)
      (completed : Option Bool) (now : Nat) :
      ReachableTodo s → ReachableTodo (updateTodo s id title completed now).1
  | del (s : TodoStore) (id : Nat) :
      ReachableTodo s → ReachableTodo (deleteTodo s id).1

/-- The `UPDATE` step preserves "all titles are trimmed". -/
theorem updateRun_titles_trimmed (s : TodoStore) (id : Nat)
    (title : Option String) (completed : Option Bool) (now : Nat)
    (ih : ∀ r ∈ s.rows, jsTrim r.title = r.title) :
    ∀ r ∈ (updateRun s id title completed now).1.rows,
      jsTrim r.title = r.title := by
  intro r hr
  cases hf : s.rows.find? (fun x => x.id == id) with
  | none =>
    rw [show (updateRun s id title completed now).1 = s from by
      unfold updateRun; rw [hf]] at hr
    exact ih r hr
  | some r0 =>
    rw [show (updateRun s id title completed now).1 =
        { s with rows := s.rows.map (fun x =>
          if x.id == id then todoSet title completed now x else x) } from by
      unfold updateRun; rw [hf]] at hr
    rcases List.mem_map.mp hr with ⟨x, hx, hfx⟩
    subst hfx
    by_cases hid : (x.id == id) = true
    · rw [if_pos hid]
      cases title with
      | some t => simpa [todoSet] using jsTrim_idem t
      | none => simpa [todoSet] using ih x hx
    · rw [if_neg hid]
      exact ih x hx

/-- C10.  In every store reachable through the public endpoints, every
record's title is stored trimmed: `jsTrim` of the title is the title itself,
so no reachable record has leading or trailing whitespace, and every
operation preserves this invariant. -/
theorem reachable_titles_trimmed (s : TodoStore) (h : ReachableTodo s) :
    ∀ r ∈ s.rows, jsTrim r.title = r.title := by
  induction h with
  | init => intro r hr; simp at hr
  | create s title now _ ih =>
    intro r hr
    cases title with
    | none => exact ih r hr
    | some t =>
      by_cases hkeep : jsTrim t = ""
      · rw [show (createTodo s (some t) now).1 = s from by
          simp [createTodo, hkeep]] at hr
        exact ih r hr
      · rw [show (createTodo s (some t) now).1 =
            ⟨s.rows ++ [⟨s.nextId, jsTrim t, false, now, now⟩], s.nextId + 1⟩
            from by simp [createTodo, hkeep]] at hr
        rcases List.mem_append.mp hr with hmem | hmem
        · exact ih r hmem
        · have hrow : r = ⟨s.nextId, jsTrim t, false, now, now⟩ := by
            simpa using hmem
          subst hrow
          exact jsTrim_idem t
  | update s id title completed now _ ih =>
    intro r hr
    cases title with
    | some t =>
      by_cases hkeep : jsTrim t = ""
      · rw [show (updateTodo s id (some t) completed now).1 = s from by
          simp [updateTodo, hkeep]] at hr
        exact ih r hr
      · rw [show (updateTodo s id (some t) completed now).1 =
            (updateRun s id (some t) completed now).1 from by
          simp [updateTodo, hkeep]] at hr
        exact updateRun_titles_trimmed s id (some t) completed now ih r hr
    | none =>
      cases completed with
      | some b =>
        exact updateRun_titles_trimmed s id none (some b) now ih r hr
      | none => exact ih r hr
  | del s id _ ih =>
    intro r hr
    rw [show (deleteTodo s id).1 =
      ⟨s.rows.filter (fun x => x.id != id), s.nextId⟩ from rfl] at hr
    exact ih r (List.mem_filter.mp hr).1

/-- C10 (witness). -/
theorem reachable_titles_trimmed_witness :
    jsTrim (Todo.mk 1 "a" false 3 3).title = (Todo.mk 1 "a" false 3 3).title :=
  reachable_titles_trimmed (createTodo ⟨[], 1⟩ (some " a ") 3).1
    (ReachableTodo.create ⟨[], 1⟩ (some " a ") 3 ReachableTodo.init)
    ⟨1, "a", false, 3, 3⟩ (by decide)
